import Mathlib

/-!
Verification of the balooProxy firewall core: a shallow embedding of the
reputation store, connection limiter, multi-window counter, adaptive
rate-limit controller and dynamic-difficulty challenge controller, with
theorems settling the specification claims.

Modelling conventions: Go maps become association lists, Go float64
becomes the exact rationals, Go int becomes Int (counts that the code
keeps nonnegative become Nat), and wall-clock times become integers in
the unit each component uses (seconds for the reputation store, whitelist
and multi-window counter; nanoseconds for the connection limiter, whose
window constant is a Go time.Duration).
-/

namespace Firewall

/-- Lookup in an association list, first binding wins (Go map read). -/
def alGet? {α β : Type} [DecidableEq α] : List (α × β) → α → Option β
| [], _ => none
| (k, v) :: t, a => if k = a then some v else alGet? t a

/-- Insert or replace a binding in an association list (Go map write). -/
def alSet {α β : Type} [DecidableEq α] : List (α × β) → α → β → List (α × β)
| [], a, b => [(a, b)]
| (k, v) :: t, a, b => if k = a then (a, b) :: t else (k, v) :: alSet t a b

/-- Remove all bindings of a key from an association list (Go map delete). -/
def alErase {α β : Type} [DecidableEq α] (l : List (α × β)) (a : α) : List (α × β) :=
List.filter (fun p => decide (p.1 ≠ a)) l

theorem alGet_set_self {α β : Type} [DecidableEq α] (l : List (α × β)) (k : α) (v : β) :
    alGet? (alSet l k v) k = some v := by
  induction l with
  | nil => simp [alSet, alGet?]
  | cons h t ih =>
    by_cases hk : h.1 = k
    · simp [alSet, hk, alGet?]
    · simp only [alSet, alGet?]
      rw [if_neg hk]
      simp only [alGet?]
      rw [if_neg hk]
      exact ih

theorem alGet_set_ne {α β : Type} [DecidableEq α] (l : List (α × β)) (k a : α) (v : β)
    (hne : k ≠ a) : alGet? (alSet l k v) a = alGet? l a := by
  induction l with
  | nil => simp [alSet, alGet?, hne]
  | cons h t ih =>
    by_cases hk : h.1 = k
    · simp only [alSet, alGet?]
      rw [if_pos hk, alGet?, if_neg hne, if_neg (hk ▸ hne)]
    · simp only [alSet, alGet?]
      rw [if_neg hk]
      simp only [alGet?]
      by_cases ha : h.1 = a
      · rw [if_pos ha, if_pos ha]
      · rw [if_neg ha, if_neg ha]
        exact ih

theorem mem_alSet {α β : Type} [DecidableEq α] {l : List (α × β)} {k : α} {v : β}
    {p : α × β} (hp : p ∈ alSet l k v) : p ∈ l ∨ p = (k, v) := by
  induction l with
  | nil => simp [alSet] at hp; simp [hp]
  | cons h t ih =>
    by_cases hk : h.1 = k
    · simp only [alSet, if_pos hk] at hp
      rcases List.mem_cons.mp hp with h1 | h1
      · right; exact h1
      · left; exact List.mem_cons_of_mem _ h1
    · simp only [alSet, if_neg hk] at hp
      rcases List.mem_cons.mp hp with h1 | h1
      · left; exact h1 ▸ List.mem_cons_self _ _
      · rcases ih h1 with h2 | h2
        · left; exact List.mem_cons_of_mem _ h2
        · right; exact h2

theorem mem_alErase {α β : Type} [DecidableEq α] {l : List (α × β)} {a : α}
    {p : α × β} (hp : p ∈ alErase l a) : p ∈ l :=
  List.mem_of_mem_filter hp

theorem alGet_map {α β γ : Type} [DecidableEq α] (f : β → γ) (l : List (α × β)) (a : α) :
    alGet? (l.map (fun p => (p.1, f p.2))) a = (alGet? l a).map f := by
  induction l with
  | nil => simp [alGet?]
  | cons h t ih =>
    simp only [List.map, alGet?]
    by_cases ha : h.1 = a
    · rw [if_pos ha, if_pos ha]; rfl
    · rw [if_neg ha, if_neg ha]; exact ih

/-! ## Reputation store (src/unnamed/part_000) -/

/-- Mirror of ReputationData. -/
structure ReputationData where
  ip : String
  score : Int
  lastUpdated : Int
  lastDecay : Int
  totalRequests : Int
  failedChallenges : Int
  rateLimitHits : Int
deriving DecidableEq

def DefaultReputationScore : Int := 50

def MaxReputationScore : Int := 100

def MinReputationScore : Int := 0

def ReputationDecayInterval : Int := 3600

abbrev RepState := List (String × ReputationData)

/-- Mirror of GetReputationScore. -/
def getReputationScore (enabled : Bool) (st : RepState) (ip : String) : Int :=
  if !enabled then DefaultReputationScore
  else
    match alGet? st ip with
    | none => DefaultReputationScore
    | some data => data.score

/-- Mirror of UpdateReputation: fetch or create the record, add the delta,
clamp to the score bounds, bump the counters keyed by the reason string. -/
def updateReputation (enabled : Bool) (st : RepState) (ip : String)
    (scoreChange : Int) (reason : String) (now : Int) : RepState :=
  if !enabled then st
  else
    let data :=
      match alGet? st ip with
      | some d => d
      | none =>
        { ip := ip, score := DefaultReputationScore, lastUpdated := now, lastDecay := now, totalRequests := 0, failedChallenges := 0, rateLimitHits := 0 }
    let s1 := data.score + scoreChange
    let s2 := if s1 > MaxReputationScore then MaxReputationScore else s1
    let s3 := if s2 < MinReputationScore then MinReputationScore else s2
    let fc := if reason = "challenge_failure" then data.failedChallenges + 1
              else data.failedChallenges
    let rl := if reason = "rate_limit_hit" then data.rateLimitHits + 1
              else data.rateLimitHits
    alSet st ip
      { data with
        score := s3
        lastUpdated := now
        totalRequests := data.totalRequests + 1
        failedChallenges := fc
        rateLimitHits := rl }

/-- Mirror of the per-record body of ReputationDecayRoutine: when the last
decay is at least one interval stale, move the score one unit toward the
default and stamp the decay time. -/
def decayRecord (interval now : Int) (d : ReputationData) : ReputationData :=
  if now - d.lastDecay ≥ interval then
    let s :=
      if d.score < DefaultReputationScore then
        let s1 := d.score + 1
        if s1 > DefaultReputationScore then DefaultReputationScore else s1
      else if d.score > DefaultReputationScore then
        let s1 := d.score - 1
        if s1 < DefaultReputationScore then DefaultReputationScore else s1
      else d.score
    { d with score := s, lastDecay := now }
  else d

/-- Mirror of one tick of ReputationDecayRoutine over the whole store. -/
def decayTick (interval now : Int) (st : RepState) : RepState :=
  st.map (fun p => (p.1, decayRecord interval now p.2))

/-- Histories of reputation-store mutations: score updates and decay ticks. -/
inductive RepOp where
| update (ip : String) (delta : Int) (reason : String) (now : Int)
| decay (now : Int)
deriving DecidableEq

/-- Run a history of reputation operations, most recent first, from the
empty store, with reputation enabled. -/
def runRepOps (interval : Int) : List RepOp → RepState
| [] => []
| op :: rest =>
  match op with
  | .update ip delta reason now => updateReputation true (runRepOps interval rest) ip delta reason now
  | .decay now => decayTick interval now (runRepOps interval rest)

/-! ## Dynamic-difficulty challenge controller (src/core/firewall/challenge.go) -/

/-- Mirror of the per-domain telemetry this controller reads. -/
structure DomainData where
  stage : Int
  rawAttack : Bool
  bypassAttack : Bool
  stage2Difficulty : Int
deriving DecidableEq

abbrev DomainsMap := List (String × DomainData)

/-- Mirror of the package-level challenge configuration variables. -/
structure ChallengeConfig where
  dynamicDifficultyEnabled : Bool
  minDifficulty : Int
  maxDifficulty : Int
  baseDifficulty : Int
deriving DecidableEq

/-- Default values of the challenge configuration variables. -/
def challengeDefaults : ChallengeConfig :=
  { dynamicDifficultyEnabled := true, minDifficulty := 1, maxDifficulty := 10, baseDifficulty := 5 }

/-- Mirror of CalculateDynamicDifficulty: sum the reputation, attack and
stage adjustments onto the base difficulty and clamp to the configured
range. -/
def calculateDynamicDifficulty (cfg : ChallengeConfig) (repEnabled : Bool)
    (repState : RepState) (domains : DomainsMap) (ip domainName : String)
    (baseDifficulty : Int) : Int :=
  if !cfg.dynamicDifficultyEnabled then baseDifficulty
  else
    let reputationScore := getReputationScore repEnabled repState ip
    match alGet? domains domainName with
    | none => baseDifficulty
    | some domainData =>
      let reputationAdjustment : Int :=
        if reputationScore < 30 then 3
        else if reputationScore < 50 then 2
        else if reputationScore < 70 then 1
        else if reputationScore ≥ 90 then -1
        else 0
      let attackAdjustment : Int :=
        if domainData.bypassAttack then 2
        else if domainData.rawAttack then 1
        else 0
      let stageAdjustment : Int :=
        if domainData.stage = 3 then 1
        else if domainData.stage = 2 then 0
        else -1
      let f0 := baseDifficulty + reputationAdjustment + attackAdjustment + stageAdjustment
      let f1 := if f0 < cfg.minDifficulty then cfg.minDifficulty else f0
      if f1 > cfg.maxDifficulty then cfg.maxDifficulty else f1

/-- Mirror of GetEffectiveDifficulty: use the stage-2 difficulty of a known
domain (global base when it is zero or the domain is unknown). -/
def getEffectiveDifficulty (cfg : ChallengeConfig) (repEnabled : Bool)
    (repState : RepState) (domains : DomainsMap) (ip domainName : String) : Int :=
  match alGet? domains domainName with
  | none => cfg.baseDifficulty
  | some domainData =>
    let baseDiff := if domainData.stage2Difficulty = 0 then cfg.baseDifficulty
                    else domainData.stage2Difficulty
    calculateDynamicDifficulty cfg repEnabled repState domains ip domainName baseDiff

/-! ## Adaptive rate-limit controller (src/core/firewall/adaptive.go) -/

/-- Mirror of the package-level adaptive configuration variables. -/
structure AdaptiveConfig where
  enabled : Bool
  baseMultiplier : ℚ
  attackMultiplier : ℚ
  decayRate : ℚ
  learningEnabled : Bool
deriving DecidableEq

/-- Default values of the adaptive configuration variables. -/
def adaptiveDefaults : AdaptiveConfig :=
  { enabled := true, baseMultiplier := 1, attackMultiplier := 3/10, decayRate := 1/10, learningEnabled := true }

abbrev MultMap := List (String × ℚ)

/-- Mirror of GetAdaptiveMultiplier. -/
def getAdaptiveMultiplier (cfg : AdaptiveConfig) (mults : MultMap) (domainName : String) : ℚ :=
  if !cfg.enabled then cfg.baseMultiplier
  else
    match alGet? mults domainName with
    | none => cfg.baseMultiplier
    | some m => m

/-- Mirror of UpdateAdaptiveMultiplier: multiplicative decrease under
attack with a floor, additive recovery toward the base otherwise. -/
def updateAdaptiveMultiplier (cfg : AdaptiveConfig) (mults : MultMap)
    (domainName : String) (isUnderAttack bypassAttack : Bool) : MultMap :=
  if !cfg.enabled then mults
  else
    let currentMultiplier :=
      match alGet? mults domainName with
      | none => cfg.baseMultiplier
      | some m => m
    if isUnderAttack then
      if bypassAttack then
        let n0 := currentMultiplier * cfg.attackMultiplier
        let n1 := if n0 < cfg.attackMultiplier then cfg.attackMultiplier else n0
        alSet mults domainName n1
      else
        let n0 := currentMultiplier * (7/10)
        let n1 := if n0 < cfg.attackMultiplier * (3/2) then cfg.attackMultiplier * (3/2) else n0
        alSet mults domainName n1
    else
      if currentMultiplier < cfg.baseMultiplier then
        let decayAmount := (cfg.baseMultiplier - currentMultiplier) * cfg.decayRate
        let n0 := currentMultiplier + decayAmount
        let n1 := if n0 > cfg.baseMultiplier then cfg.baseMultiplier else n0
        alSet mults domainName n1
      else mults

/-- Per-domain body of StartAdaptiveRateLimitRoutine: the under-attack flag
passed to the update is the disjunction of the raw and bypass flags. -/
def domainAttackTick (cfg : AdaptiveConfig) (mults : MultMap) (domainName : String)
    (rawAttack bypassAttack : Bool) : MultMap :=
  updateAdaptiveMultiplier cfg mults domainName (rawAttack || bypassAttack) bypassAttack

/-- Truncation of a rational toward zero, the behaviour of the Go
conversion int(f) on a float64. -/
def ratTrunc (q : ℚ) : Int := Int.tdiv q.num (q.den : Int)

/-- Mirror of GetAdaptiveRateLimit. -/
def getAdaptiveRateLimit (cfg : AdaptiveConfig) (mults : MultMap)
    (baseLimit : Int) (domainName : String) : Int :=
  if !cfg.enabled then baseLimit
  else
    let multiplier := getAdaptiveMultiplier cfg mults domainName
    let a0 := (baseLimit : ℚ) * multiplier
    let a1 := if a0 < (baseLimit : ℚ) * cfg.attackMultiplier then (baseLimit : ℚ) * cfg.attackMultiplier else a0
    ratTrunc a1

/-! ## Trust-list (whitelist) learning (src/core/firewall/adaptive.go) -/

/-- Mirror of WhitelistEntry. -/
structure WhitelistEntry where
  ip : String
  addedAt : Int
  requestCount : Int
  successRate : ℚ
  lastSeen : Int
deriving DecidableEq

abbrev WlState := List (String × WhitelistEntry)

/-- Mirror of CheckWhitelist: trusted iff an entry exists whose last-seen
time is within 24 hours (86400 s) of now. -/
def checkWhitelist (cfg : AdaptiveConfig) (st : WlState) (ip : String) (now : Int) : Bool :=
  if !cfg.learningEnabled then false
  else
    match alGet? st ip with
    | none => false
    | some entry => if now - entry.lastSeen > 86400 then false else true

/-- Mirror of UpdateWhitelistLearning: create the entry when absent, bump
the count and the incremental success-rate mean, then either retain the
entry or delete it when it has enough data and a low success rate. -/
def updateWhitelistLearning (cfg : AdaptiveConfig) (st : WlState) (ip : String)
    (success : Bool) (now : Int) : WlState :=
  if !cfg.learningEnabled then st
  else
    let entry :=
      match alGet? st ip with
      | some e => e
      | none => { ip := ip, addedAt := now, requestCount := 0, successRate := 0, lastSeen := now }
    let n : Int := entry.requestCount + 1
    let rate : ℚ :=
      if success then ((n - 1 : Int) : ℚ) / (n : ℚ) * entry.successRate + 1 / (n : ℚ)
      else ((n - 1 : Int) : ℚ) / (n : ℚ) * entry.successRate
    let e2 := { entry with requestCount := n, successRate := rate, lastSeen := now }
    if n ≥ 100 ∧ rate ≥ 19/20 then alSet st ip e2
    else if n < 10 then alSet st ip e2
    else if rate < 1/2 then alErase st ip
    else alSet st ip e2

/-- Mirror of CleanupWhitelist: drop entries unseen for 7 days (604800 s). -/
def cleanupWhitelist (st : WlState) (now : Int) : WlState :=
  List.filter (fun p => decide (¬(now - p.2.lastSeen > 604800))) st

/-- Histories of trust-list mutations: learning updates and cleanups. -/
inductive WlOp where
| learn (ip : String) (success : Bool) (now : Int)
| cleanup (now : Int)

/-- Run a history of trust-list operations, most recent first, from the
empty list. -/
def runWlOps (cfg : AdaptiveConfig) : List WlOp → WlState
| [] => []
| op :: rest =>
  match op with
  | .learn ip success now => updateWhitelistLearning cfg (runWlOps cfg rest) ip success now
  | .cleanup now => cleanupWhitelist (runWlOps cfg rest) now

/-! ## Connection limiter (src/unnamed/part_001) -/

/-- Mirror of the package-level connection-limit variables. Times are in
nanoseconds, the unit of a Go time.Duration. -/
structure ConnConfig where
  maxConcurrentConnPerIP : Nat
  maxConnRatePerIP : Nat
  maxHalfOpenPerIP : Nat
  enableSynFloodProtection : Bool
  connectionRateWindow : Int
deriving DecidableEq

/-- Default values of the connection-limit variables (1 s window). -/
def connDefaults : ConnConfig :=
  { maxConcurrentConnPerIP := 100, maxConnRatePerIP := 10, maxHalfOpenPerIP := 20, enableSynFloodProtection := true, connectionRateWindow := 1000000000 }

/-- Mirror of ConnectionLimiter. -/
structure ConnState where
  activeConnections : List (String × Nat)
  connectionRate : List (String × List Int)
  halfOpenConnections : List (String × Nat)
deriving DecidableEq

def emptyConnState : ConnState :=
  { activeConnections := [], connectionRate := [], halfOpenConnections := [] }

/-- Mirror of CheckConnectionLimit: concurrent cap, then the pruned rate
window cap, then the half-open cap; the pruning is written back. -/
def checkConnectionLimit (cfg : ConnConfig) (st : ConnState) (ip : String)
    (now : Int) : Bool × ConnState :=
  if (alGet? st.activeConnections ip).getD 0 ≥ cfg.maxConcurrentConnPerIP then (false, st)
  else
    let rateTimestamps := (alGet? st.connectionRate ip).getD []
    let validTimestamps := rateTimestamps.filter (fun ts => decide (now - ts < cfg.connectionRateWindow))
    let st1 := { st with connectionRate := alSet st.connectionRate ip validTimestamps }
    if validTimestamps.length ≥ cfg.maxConnRatePerIP then (false, st1)
    else if cfg.enableSynFloodProtection ∧ (alGet? st1.halfOpenConnections ip).getD 0 ≥ cfg.maxHalfOpenPerIP then (false, st1)
    else (true, st1)

/-- Mirror of IncrementConnection: bump the active count and append the
current time to the rate window. -/
def incrementConnection (st : ConnState) (ip : String) (now : Int) : ConnState :=
  { st with
    activeConnections := alSet st.activeConnections ip ((alGet? st.activeConnections ip).getD 0 + 1)
    connectionRate := alSet st.connectionRate ip (((alGet? st.connectionRate ip).getD []) ++ [now]) }

/-! ## Multi-window counter (src/unnamed/part_002) -/

/-- Buckets of one window kind: bucket timestamp to per-IP counts. -/
abbrev WMap := List (Nat × List (String × Nat))

/-- Read one count out of a window map, zero when absent. -/
def wmCount (m : WMap) (ts : Nat) (ip : String) : Nat :=
  (alGet? ((alGet? m ts).getD []) ip).getD 0

/-- Record one request into the current bucket of one window map. -/
def wmRecord (w : Nat) (m : WMap) (ip : String) (now : Nat) : WMap :=
  let ts := now / w * w
  let b := (alGet? m ts).getD []
  alSet m ts (alSet b ip ((alGet? b ip).getD 0 + 1))

/-- Mirror of the package-level multi-window variables. -/
structure MWConfig where
  enabled : Bool
  burstWindow : Nat
  shortWindow : Nat
  mediumWindow : Nat
  longWindow : Nat
deriving DecidableEq

/-- Default values of the multi-window variables (seconds). -/
def mwDefaults : MWConfig :=
  { enabled := true, burstWindow := 10, shortWindow := 60, mediumWindow := 300, longWindow := 3600 }

/-- Mirror of the four tracking maps. -/
structure MWState where
  burstIps : WMap
  shortIps : WMap
  mediumIps : WMap
  longIps : WMap
deriving DecidableEq

def emptyMW : MWState :=
  { burstIps := [], shortIps := [], mediumIps := [], longIps := [] }

/-- Mirror of RecordRequest: bump the current bucket of all four windows. -/
def recordRequest (cfg : MWConfig) (st : MWState) (ip : String) (now : Nat) : MWState :=
  if !cfg.enabled then st
  else
    { burstIps := wmRecord cfg.burstWindow st.burstIps ip now
      shortIps := wmRecord cfg.shortWindow st.shortIps ip now
      mediumIps := wmRecord cfg.mediumWindow st.mediumIps ip now
      longIps := wmRecord cfg.longWindow st.longIps ip now }

/-- Mirror of GetRequestCount: read the current bucket of the named
window, zero for an unrecognized name. -/
def getRequestCount (cfg : MWConfig) (st : MWState) (ip : String)
    (window : String) (now : Nat) : Nat :=
  if !cfg.enabled then 0
  else if window = "burst" then wmCount st.burstIps (now / cfg.burstWindow * cfg.burstWindow) ip
  else if window = "short" then wmCount st.shortIps (now / cfg.shortWindow * cfg.shortWindow) ip
  else if window = "medium" then wmCount st.mediumIps (now / cfg.mediumWindow * cfg.mediumWindow) ip
  else if window = "long" then wmCount st.longIps (now / cfg.longWindow * cfg.longWindow) ip
  else 0

/-- Run a history of RecordRequest calls, most recent first, from the
empty state, under the default configuration. -/
def runRecords : List (Nat × String) → MWState
| [] => emptyMW
| e :: rest => recordRequest mwDefaults (runRecords rest) e.2 e.1

/-- Projection of runRecords onto a single window kind. -/
def runW (w : Nat) : List (Nat × String) → WMap
| [] => []
| e :: rest => wmRecord w (runW w rest) e.2 e.1

/-- Entries that must never survive a learning update: enough data and a
low success rate. -/
def wlGood (e : WhitelistEntry) : Prop := ¬(10 ≤ e.requestCount ∧ e.successRate < 1/2)

/-- Trust-list invariant: every stored entry is retainable. -/
def WlInv (st : WlState) : Prop := ∀ p ∈ st, wlGood p.2

/-- Reputation-store invariant: every stored score is within bounds. -/
def RepInv (st : RepState) : Prop :=
  ∀ p ∈ st, MinReputationScore ≤ p.2.score ∧ p.2.score ≤ MaxReputationScore

/-- Concrete domain table for the cold-IP scenario: stage 1, no attack,
stage-2 difficulty 5. -/
def c1Domains : DomainsMap :=
  [("example.com", { stage := 1, rawAttack := false, bypassAttack := false, stage2Difficulty := 5 })]

/-- Concrete multiplier table with a domain at multiplier one half. -/
def c2Mults : MultMap := [("example.org", 1/2)]

/-- Concrete state after n IncrementConnection calls from one IP at time 0. -/
def connStorm : Nat → ConnState
| 0 => emptyConnState
| n + 1 => incrementConnection (connStorm n) "203.0.113.9" 0

/-! ## General lemmas -/

theorem alGet_mem {α β : Type} [DecidableEq α] {l : List (α × β)} {k : α} {v : β}
    (h : alGet? l k = some v) : (k, v) ∈ l := by
  induction l with
  | nil => simp [alGet?] at h
  | cons hd t ih =>
    by_cases hk : hd.1 = k
    · rw [alGet?, if_pos hk] at h
      have : hd = (k, v) := by
        cases hd
        simp only [Option.some.injEq] at h
        simp_all
      exact this ▸ List.mem_cons_self _ _
    · rw [alGet?, if_neg hk] at h
      exact List.mem_cons_of_mem _ (ih h)

theorem intClamp_bounds (lo hi x : Int) (h : lo ≤ hi) :
    lo ≤ (if (if x < lo then lo else x) > hi then hi else (if x < lo then lo else x)) ∧
      (if (if x < lo then lo else x) > hi then hi else (if x < lo then lo else x)) ≤ hi := by
  split_ifs <;> omega

theorem clampFloor (a b : ℚ) : (if a < b then b else a) = max a b := by
  split_ifs with h
  · exact (max_eq_right h.le).symm
  · exact (max_eq_left (not_lt.mp h)).symm

theorem clampCeil (a b : ℚ) : (if a > b then b else a) = min a b := by
  split_ifs with h
  · exact (min_eq_right h.le).symm
  · exact (min_eq_left (not_lt.mp h)).symm

/-! ## Claim C1 -/

/-- C1 counterexample: for an IP with no reputation record (score reads
50), on a domain at stage 1 with no attack and base difficulty 5, the
effective difficulty is not 4 as the claim states: the reputation band
50 ≤ score < 70 contributes +1, so the result is 5 + 1 + 0 - 1 = 5. -/
theorem difficulty_cold_ip_scenario_claim_false :
    getEffectiveDifficulty challengeDefaults true [] c1Domains "198.51.100.7" "example.com" ≠ 4 := by
  decide

/-- C1 (amended): for an IP with no reputation record, on a domain whose
stage is 1 with no raw attack and no bypass attack and base difficulty 5,
GetEffectiveDifficulty returns 5 (the default score 50 falls in the
50 ≤ score < 70 band, contributing +1, and stage 1 contributes -1). -/
theorem difficulty_cold_ip_stage1_eq_five (repEnabled : Bool) (repState : RepState)
    (domains : DomainsMap) (ip domainName : String) (d : DomainData)
    (hRep : alGet? repState ip = none) (hDom : alGet? domains domainName = some d)
    (hStage : d.stage = 1) (hRaw : d.rawAttack = false) (hBypass : d.bypassAttack = false)
    (hBase : d.stage2Difficulty = 5) :
    getEffectiveDifficulty challengeDefaults repEnabled repState domains ip domainName = 5 := by
  have hscore : getReputationScore repEnabled repState ip = 50 := by
    cases repEnabled <;> simp [getReputationScore, hRep, DefaultReputationScore]
  unfold getEffectiveDifficulty calculateDynamicDifficulty
  rw [hDom]
  simp only [hscore, hStage, hRaw, hBypass, hBase, challengeDefaults]
  norm_num

/-- Witness for C1 at the concrete scenario input. -/
theorem difficulty_cold_ip_stage1_eq_five_witness :
    getEffectiveDifficulty challengeDefaults true [] c1Domains "198.51.100.7" "example.com" = 5 :=
  difficulty_cold_ip_stage1_eq_five true [] c1Domains "198.51.100.7" "example.com"
    { stage := 1, rawAttack := false, bypassAttack := false, stage2Difficulty := 5 }
    rfl (by decide) rfl rfl rfl rfl

/-! ## Claim C4 -/

/-- C4: with dynamic difficulty enabled and the global base difficulty
within the configured bounds (as the defaults 1 ≤ 5 ≤ 10 are), the
difficulty returned by GetEffectiveDifficulty lies within
[minDifficulty, maxDifficulty] for every IP, domain table, reputation
state, attack-flag combination, stage and stage-2 difficulty. -/
theorem difficulty_within_bounds (cfg : ChallengeConfig) (repEnabled : Bool)
    (repState : RepState) (domains : DomainsMap) (ip domainName : String)
    (hEnabled : cfg.dynamicDifficultyEnabled = true)
    (h1 : cfg.minDifficulty ≤ cfg.baseDifficulty)
    (h2 : cfg.baseDifficulty ≤ cfg.maxDifficulty) :
    cfg.minDifficulty ≤ getEffectiveDifficulty cfg repEnabled repState domains ip domainName ∧
      getEffectiveDifficulty cfg repEnabled repState domains ip domainName ≤ cfg.maxDifficulty := by
  unfold getEffectiveDifficulty calculateDynamicDifficulty
  cases hdom : alGet? domains domainName with
  | none => exact ⟨h1, h2⟩
  | some d =>
    simp only [hEnabled, Bool.not_true, Bool.false_eq_true, if_false]
    exact intClamp_bounds cfg.minDifficulty cfg.maxDifficulty _ (le_trans h1 h2)

/-- Witness for C4 at the default configuration. -/
theorem difficulty_within_bounds_witness :
    challengeDefaults.minDifficulty ≤ getEffectiveDifficulty challengeDefaults true [] [] "1.2.3.4" "example.com" ∧
      getEffectiveDifficulty challengeDefaults true [] [] "1.2.3.4" "example.com" ≤ challengeDefaults.maxDifficulty :=
  difficulty_within_bounds challengeDefaults true [] [] "1.2.3.4" "example.com" rfl
    (by decide) (by decide)

/-! ## Claim C5 -/

theorem repInv_update (st : RepState) (ip reason : String) (delta now : Int)
    (h : RepInv st) : RepInv (updateReputation true st ip delta reason now) := by
  unfold updateReputation
  simp only [Bool.not_true, Bool.false_eq_true, if_false]
  intro p hp
  rcases mem_alSet hp with hin | heq
  · exact h p hin
  · subst heq
    simp only [MinReputationScore, MaxReputationScore]
    constructor <;> split_ifs <;> simp_all [MaxReputationScore, MinReputationScore]

theorem repInv_decay (interval now : Int) (st : RepState) (h : RepInv st) :
    RepInv (decayTick interval now st) := by
  intro p hp
  simp only [decayTick, List.mem_map] at hp
  obtain ⟨q, hq, rfl⟩ := hp
  have hb := h q hq
  simp only [MinReputationScore, MaxReputationScore] at hb ⊢
  unfold decayRecord
  split_ifs <;> simp_all [DefaultReputationScore] <;> omega

theorem repInv_run (interval : Int) (ops : List RepOp) : RepInv (runRepOps interval ops) := by
  induction ops with
  | nil => intro p hp; simp [runRepOps] at hp
  | cons op rest ih =>
    cases op with
    | update ip delta reason now => exact repInv_update _ _ _ _ _ ih
    | decay now => exact repInv_decay _ _ _ ih

/-- C5: every reachable reputation score stays within [0, 100] under any
interleaving of updates and decay ticks, and on a fresh IP an update of
+100 lands exactly at 100 while an update of -100 lands exactly at 0. -/
theorem reputation_score_bounded :
    (∀ (interval : Int) (ops : List RepOp) (ip : String) (d : ReputationData),
        alGet? (runRepOps interval ops) ip = some d →
        MinReputationScore ≤ d.score ∧ d.score ≤ MaxReputationScore) ∧
    (∀ (st : RepState) (ip reason : String) (now : Int), alGet? st ip = none →
        getReputationScore true (updateReputation true st ip 100 reason now) ip = MaxReputationScore) ∧
    (∀ (st : RepState) (ip reason : String) (now : Int), alGet? st ip = none →
        getReputationScore true (updateReputation true st ip (-100) reason now) ip = MinReputationScore) := by
  refine ⟨?_, ?_, ?_⟩
  · intro interval ops ip d hd
    exact repInv_run interval ops (ip, d) (alGet_mem hd)
  · intro st ip reason now h
    unfold updateReputation getReputationScore
    simp only [h, Bool.not_true, Bool.false_eq_true, if_false]
    rw [alGet_set_self]
    simp [DefaultReputationScore, MaxReputationScore, MinReputationScore]
  · intro st ip reason now h
    unfold updateReputation getReputationScore
    simp only [h, Bool.not_true, Bool.false_eq_true, if_false]
    rw [alGet_set_self]
    simp [DefaultReputationScore, MaxReputationScore, MinReputationScore]

/-- Witness for C5: the invariant evaluated on a one-update history, and
both saturation updates evaluated on the empty store. -/
theorem reputation_score_bounded_witness :
    (MinReputationScore ≤ (100 : Int) ∧ (100 : Int) ≤ MaxReputationScore) ∧
      getReputationScore true (updateReputation true [] "198.51.100.7" 100 "successful_access" 0) "198.51.100.7" = MaxReputationScore ∧
      getReputationScore true (updateReputation true [] "198.51.100.7" (-100) "rate_limit_hit" 0) "198.51.100.7" = MinReputationScore := by
  refine ⟨?_, ?_, ?_⟩
  · have := reputation_score_bounded.1 3600 [RepOp.update "198.51.100.7" 100 "x" 0] "198.51.100.7"
      { ip := "198.51.100.7", score := 100, lastUpdated := 0, lastDecay := 0, totalRequests := 1, failedChallenges := 0, rateLimitHits := 0 }
      (by decide)
    exact this
  · exact reputation_score_bounded.2.1 [] "198.51.100.7" "successful_access" 0 rfl
  · exact reputation_score_bounded.2.2 [] "198.51.100.7" "rate_limit_hit" 0 rfl

/-! ## Claim C9 -/

/-- C9: one decay tick moves a stale record by exactly +1 below the
default, exactly -1 above it, and leaves a score of 50 unchanged while
restamping the decay time; a fresh record is untouched. -/
theorem decay_tick_record_effect (interval now : Int) (st : RepState) (ip : String)
    (d : ReputationData) (h : alGet? st ip = some d) :
    (interval ≤ now - d.lastDecay → d.score < DefaultReputationScore →
        alGet? (decayTick interval now st) ip = some { d with score := d.score + 1, lastDecay := now }) ∧
    (interval ≤ now - d.lastDecay → DefaultReputationScore < d.score →
        alGet? (decayTick interval now st) ip = some { d with score := d.score - 1, lastDecay := now }) ∧
    (interval ≤ now - d.lastDecay → d.score = DefaultReputationScore →
        alGet? (decayTick interval now st) ip = some { d with lastDecay := now }) ∧
    (now - d.lastDecay < interval → alGet? (decayTick interval now st) ip = some d) := by
  have hget : alGet? (decayTick interval now st) ip = some (decayRecord interval now d) := by
    unfold decayTick
    rw [alGet_map, h]
    rfl
  rw [hget]
  refine ⟨?_, ?_, ?_, ?_⟩
  · intro hstale hlt
    unfold decayRecord
    rw [if_pos (by omega), if_pos hlt, if_neg (by simp only [DefaultReputationScore] at hlt ⊢; omega)]
  · intro hstale hgt
    unfold decayRecord
    rw [if_pos (by omega), if_neg (by omega), if_pos hgt, if_neg (by simp only [DefaultReputationScore] at hgt ⊢; omega)]
  · intro hstale heq
    unfold decayRecord
    rw [if_pos (by omega), if_neg (by omega), if_neg (by omega)]
  · intro hfresh
    unfold decayRecord
    rw [if_neg (by omega)]

/-- Witness for C9: a stale record at score 20 decays to exactly 21. -/
theorem decay_tick_record_effect_witness :
    alGet? (decayTick 3600 7200 [("198.51.100.7", { ip := "198.51.100.7", score := 20, lastUpdated := 0, lastDecay := 0, totalRequests := 0, failedChallenges := 0, rateLimitHits := 0 })]) "198.51.100.7" =
      some { ip := "198.51.100.7", score := 21, lastUpdated := 0, lastDecay := 7200, totalRequests := 0, failedChallenges := 0, rateLimitHits := 0 } :=
  (decay_tick_record_effect 3600 7200 _ "198.51.100.7"
      { ip := "198.51.100.7", score := 20, lastUpdated := 0, lastDecay := 0, totalRequests := 0, failedChallenges := 0, rateLimitHits := 0 }
      (by decide)).1 (by decide) (by decide)

/-! ## Claim C6 -/

theorem wlInv_set (st : WlState) (ip : String) (e2 : WhitelistEntry)
    (h : WlInv st) (hgood : wlGood e2) : WlInv (alSet st ip e2) := by
  intro p hp
  rcases mem_alSet hp with hin | heq
  · exact h p hin
  · subst heq; exact hgood

theorem wlInv_update (cfg : AdaptiveConfig) (st : WlState) (ip : String)
    (success : Bool) (now : Int) (h : WlInv st) :
    WlInv (updateWhitelistLearning cfg st ip success now) := by
  unfold updateWhitelistLearning
  cases hle : cfg.learningEnabled with
  | false => simpa using h
  | true =>
    simp only [Bool.not_true, Bool.false_eq_true, if_false]
    cases success with
    | false =>
      simp only [Bool.false_eq_true, if_false]
      split_ifs with h1 h2 h3
      · refine wlInv_set _ _ _ h ?_
        intro hc
        have h2c := hc.2
        dsimp only at h2c
        linarith [h1.2]
      · refine wlInv_set _ _ _ h ?_
        intro hc
        have h1c := hc.1
        dsimp only at h1c
        omega
      · intro p hp
        exact h p (mem_alErase hp)
      · refine wlInv_set _ _ _ h ?_
        intro hc
        have h2c := hc.2
        dsimp only at h2c
        exact h3 h2c
    | true =>
      rw [if_pos rfl]
      split_ifs with h1 h2 h3
      · refine wlInv_set _ _ _ h ?_
        intro hc
        have h2c := hc.2
        dsimp only at h2c
        linarith [h1.2]
      · refine wlInv_set _ _ _ h ?_
        intro hc
        have h1c := hc.1
        dsimp only at h1c
        omega
      · intro p hp
        exact h p (mem_alErase hp)
      · refine wlInv_set _ _ _ h ?_
        intro hc
        have h2c := hc.2
        dsimp only at h2c
        exact h3 h2c

theorem wlInv_cleanup (st : WlState) (now : Int) (h : WlInv st) :
    WlInv (cleanupWhitelist st now) := by
  intro p hp
  exact h p (List.mem_of_mem_filter hp)

theorem wlInv_run (cfg : AdaptiveConfig) (ops : List WlOp) : WlInv (runWlOps cfg ops) := by
  induction ops with
  | nil => intro p hp; simp [runWlOps] at hp
  | cons op rest ih =>
    cases op with
    | learn ip success now => exact wlInv_update _ _ _ _ _ ih
    | cleanup now => exact wlInv_cleanup _ _ ih

/-- C6: in any trust list reachable by learning updates and cleanups, no
entry has a request count of at least 10 together with a success rate
below one half: such an entry is deleted by the update that produced it. -/
theorem trustlist_no_low_rate_entry (cfg : AdaptiveConfig) (ops : List WlOp)
    (ip : String) (e : WhitelistEntry) (h : alGet? (runWlOps cfg ops) ip = some e) :
    ¬(10 ≤ e.requestCount ∧ e.successRate < 1/2) :=
  wlInv_run cfg ops (ip, e) (alGet_mem h)

/-- Witness for C6: the entry left by a single successful update has count
1 and rate 1, which is retainable. -/
theorem trustlist_no_low_rate_entry_witness :
    ¬(10 ≤ ({ ip := "198.51.100.7", addedAt := 0, requestCount := 1, successRate := 1, lastSeen := 0 } : WhitelistEntry).requestCount ∧
      ({ ip := "198.51.100.7", addedAt := 0, requestCount := 1, successRate := 1, lastSeen := 0 } : WhitelistEntry).successRate < 1/2) :=
  trustlist_no_low_rate_entry adaptiveDefaults [WlOp.learn "198.51.100.7" true 0]
    "198.51.100.7" { ip := "198.51.100.7", addedAt := 0, requestCount := 1, successRate := 1, lastSeen := 0 }
    (by norm_num [runWlOps, updateWhitelistLearning, adaptiveDefaults, alGet?, alSet])

/-! ## Claim C3 -/

/-- C3 counterexample: one successful learning update on a fresh IP makes
CheckWhitelist return true, not false: the update inserts an entry with a
fresh last-seen time, and CheckWhitelist only tests existence and
last-seen age, not the count threshold. -/
theorem whitelist_one_success_not_trusted_claim_false :
    checkWhitelist adaptiveDefaults (updateWhitelistLearning adaptiveDefaults [] "198.51.100.7" true 0) "198.51.100.7" 0 ≠ false := by
  decide

/-- C3 (amended): for every IP with no existing trust-list entry and
learning enabled, after exactly one call to UpdateWhitelistLearning with
success, CheckWhitelist returns true when queried within 24 hours: the
count threshold gates deletion and auto-whitelist marking, not the trust
check. -/
theorem whitelist_one_success_trusted (cfg : AdaptiveConfig) (st : WlState)
    (ip : String) (now now2 : Int) (hle : cfg.learningEnabled = true)
    (h : alGet? st ip = none) (hage : now2 - now ≤ 86400) :
    checkWhitelist cfg (updateWhitelistLearning cfg st ip true now) ip now2 = true := by
  unfold updateWhitelistLearning checkWhitelist
  simp only [hle, h, Bool.not_true, Bool.false_eq_true, if_false]
  rw [if_neg (by intro hc; omega), if_pos (by omega)]
  rw [alGet_set_self]
  simp only
  rw [if_neg (by omega)]

/-- Witness for C3 at the concrete scenario input. -/
theorem whitelist_one_success_trusted_witness :
    checkWhitelist adaptiveDefaults (updateWhitelistLearning adaptiveDefaults [] "198.51.100.7" true 0) "198.51.100.7" 0 = true :=
  whitelist_one_success_trusted adaptiveDefaults [] "198.51.100.7" 0 0 rfl rfl (by decide)

/-! ## Claim C2 -/

/-- C2 counterexample: with a domain at multiplier one half and base limit
3, GetAdaptiveRateLimit returns 1, whereas max(3 × 1/2, 3 × 3/10) = 3/2:
the returned limit is the integer truncation of that maximum, not the
maximum itself. -/
theorem adaptive_rate_limit_exact_max_claim_false :
    ((getAdaptiveRateLimit adaptiveDefaults c2Mults 3 "example.org" : Int) : ℚ) ≠
      max ((3 : ℚ) * getAdaptiveMultiplier adaptiveDefaults c2Mults "example.org")
        ((3 : ℚ) * adaptiveDefaults.attackMultiplier) := by
  have h1 : getAdaptiveRateLimit adaptiveDefaults c2Mults 3 "example.org" = 1 := by
    norm_num [getAdaptiveRateLimit, getAdaptiveMultiplier, adaptiveDefaults, c2Mults, alGet?, ratTrunc]
    decide
  have h2 : getAdaptiveMultiplier adaptiveDefaults c2Mults "example.org" = 1/2 := by
    norm_num [getAdaptiveMultiplier, adaptiveDefaults, c2Mults, alGet?]
  rw [h1, h2]
  show (1 : ℚ) ≠ max ((3 : ℚ) * (1/2)) ((3 : ℚ) * adaptiveDefaults.attackMultiplier)
  rw [show adaptiveDefaults.attackMultiplier = 3/10 from rfl]
  rw [max_eq_left (by norm_num)]
  norm_num

/-- C2 (amended): with adaptive rate limiting enabled, the returned limit
equals the truncation toward zero of max(base × m, base × attack
multiplier), where m is the current adaptive multiplier of the domain. -/
theorem adaptive_rate_limit_eq_trunc_max (cfg : AdaptiveConfig) (mults : MultMap)
    (baseLimit : Int) (domainName : String) (h : cfg.enabled = true) :
    getAdaptiveRateLimit cfg mults baseLimit domainName =
      ratTrunc (max ((baseLimit : ℚ) * getAdaptiveMultiplier cfg mults domainName)
        ((baseLimit : ℚ) * cfg.attackMultiplier)) := by
  unfold getAdaptiveRateLimit
  simp only [h, Bool.not_true, Bool.false_eq_true, if_false]
  rw [clampFloor]

/-- Witness for C2 at the counterexample input. -/
theorem adaptive_rate_limit_eq_trunc_max_witness :
    getAdaptiveRateLimit adaptiveDefaults c2Mults 3 "example.org" =
      ratTrunc (max ((3 : ℚ) * getAdaptiveMultiplier adaptiveDefaults c2Mults "example.org")
        ((3 : ℚ) * adaptiveDefaults.attackMultiplier)) :=
  adaptive_rate_limit_eq_trunc_max adaptiveDefaults c2Mults 3 "example.org" rfl

/-! ## Claim C7 -/

theorem updateMult_eq (mults : MultMap) (dn : String) (u b : Bool) (cur : ℚ)
    (hcur : getAdaptiveMultiplier adaptiveDefaults mults dn = cur) :
    getAdaptiveMultiplier adaptiveDefaults (updateAdaptiveMultiplier adaptiveDefaults mults dn u b) dn =
      if u then
        if b then max (cur * (3/10)) (3/10)
        else max (cur * (7/10)) ((3/10) * (3/2))
      else if cur < 1 then min (cur + (1 - cur) * (1/10)) 1
      else cur := by
  cases hget : alGet? mults dn with
  | none =>
    have hcv : cur = 1 := by rw [← hcur]; simp [getAdaptiveMultiplier, adaptiveDefaults, hget]
    subst hcv
    unfold updateAdaptiveMultiplier
    rw [hget]
    simp only [adaptiveDefaults, Bool.not_true, Bool.false_eq_true, if_false]
    cases u with
    | true =>
      simp only [if_true]
      cases b with
      | true =>
        simp only [if_true]
        rw [getAdaptiveMultiplier]
        simp only [adaptiveDefaults, Bool.not_true, Bool.false_eq_true, if_false, alGet_set_self]
        exact clampFloor _ _
      | false =>
        simp only [Bool.false_eq_true, if_false]
        rw [getAdaptiveMultiplier]
        simp only [adaptiveDefaults, Bool.not_true, Bool.false_eq_true, if_false, alGet_set_self]
        exact clampFloor _ _
    | false =>
      simp only [Bool.false_eq_true, if_false]
      rw [if_neg (by norm_num), if_neg (by norm_num)]
      simp [getAdaptiveMultiplier, adaptiveDefaults, hget]
  | some m =>
    have hcv : cur = m := by rw [← hcur]; simp [getAdaptiveMultiplier, adaptiveDefaults, hget]
    subst hcv
    unfold updateAdaptiveMultiplier
    rw [hget]
    simp only [adaptiveDefaults, Bool.not_true, Bool.false_eq_true, if_false]
    cases u with
    | true =>
      simp only [if_true]
      cases b with
      | true =>
        simp only [if_true]
        rw [getAdaptiveMultiplier]
        simp only [adaptiveDefaults, Bool.not_true, Bool.false_eq_true, if_false, alGet_set_self]
        exact clampFloor _ _
      | false =>
        simp only [Bool.false_eq_true, if_false]
        rw [getAdaptiveMultiplier]
        simp only [adaptiveDefaults, Bool.not_true, Bool.false_eq_true, if_false, alGet_set_self]
        exact clampFloor _ _
    | false =>
      simp only [Bool.false_eq_true, if_false]
      rcases lt_or_ge cur 1 with hc | hc
      · rw [if_pos hc, if_pos hc]
        rw [getAdaptiveMultiplier]
        simp only [adaptiveDefaults, Bool.not_true, Bool.false_eq_true, if_false, alGet_set_self]
        exact clampCeil _ _
      · rw [if_neg (not_lt.mpr hc), if_neg (not_lt.mpr hc)]
        simp [getAdaptiveMultiplier, hget]

/-- C7: one routine tick on a domain whose multiplier m lies in
[attack multiplier, 1] follows the three specified formulas — bypass
attack: max(m × 0.3, 0.3); raw attack only: max(m × 0.7, 0.3 × 1.5);
no attack: min(m + (1 − m) × 0.1, 1) — and the result stays within
[attack multiplier, 1]. -/
theorem adaptive_multiplier_tick_cases (mults : MultMap) (domainName : String)
    (raw bypass : Bool)
    (hlo : (3 : ℚ)/10 ≤ getAdaptiveMultiplier adaptiveDefaults mults domainName)
    (hhi : getAdaptiveMultiplier adaptiveDefaults mults domainName ≤ 1) :
    (bypass = true →
        getAdaptiveMultiplier adaptiveDefaults (domainAttackTick adaptiveDefaults mults domainName raw bypass) domainName =
          max (getAdaptiveMultiplier adaptiveDefaults mults domainName * (3/10)) (3/10)) ∧
    (bypass = false → raw = true →
        getAdaptiveMultiplier adaptiveDefaults (domainAttackTick adaptiveDefaults mults domainName raw bypass) domainName =
          max (getAdaptiveMultiplier adaptiveDefaults mults domainName * (7/10)) ((3/10) * (3/2))) ∧
    (bypass = false → raw = false →
        getAdaptiveMultiplier adaptiveDefaults (domainAttackTick adaptiveDefaults mults domainName raw bypass) domainName =
          min (getAdaptiveMultiplier adaptiveDefaults mults domainName + (1 - getAdaptiveMultiplier adaptiveDefaults mults domainName) * (1/10)) 1) ∧
    ((3 : ℚ)/10 ≤ getAdaptiveMultiplier adaptiveDefaults (domainAttackTick adaptiveDefaults mults domainName raw bypass) domainName ∧
        getAdaptiveMultiplier adaptiveDefaults (domainAttackTick adaptiveDefaults mults domainName raw bypass) domainName ≤ 1) := by
  have hstep := updateMult_eq mults domainName (raw || bypass) bypass
    (getAdaptiveMultiplier adaptiveDefaults mults domainName) rfl
  set m := getAdaptiveMultiplier adaptiveDefaults mults domainName with hmdef
  have hnoatt : (raw || bypass) = false →
      getAdaptiveMultiplier adaptiveDefaults (domainAttackTick adaptiveDefaults mults domainName raw bypass) domainName =
        min (m + (1 - m) * (1/10)) 1 := by
    intro hu
    rw [domainAttackTick, hstep, hu]
    simp only [Bool.false_eq_true, if_false]
    rcases lt_or_ge m 1 with hm1 | hm1
    · rw [if_pos hm1]
    · have hm2 : m = 1 := le_antisymm hhi hm1
      rw [if_neg (by rw [hm2]; norm_num), hm2]
      norm_num
  refine ⟨?_, ?_, ?_, ?_⟩
  · intro hb
    subst hb
    rw [domainAttackTick, hstep]
    simp
  · intro hb hr
    subst hb; subst hr
    rw [domainAttackTick, hstep]
    simp
  · intro hb hr
    subst hb; subst hr
    exact hnoatt rfl
  · cases bypass with
    | true =>
      rw [domainAttackTick, hstep]
      simp only [Bool.or_true, if_true]
      constructor
      · exact le_max_right _ _
      · apply max_le _ (by norm_num)
        nlinarith
    | false =>
      cases raw with
      | true =>
        rw [domainAttackTick, hstep]
        simp only [Bool.true_or, if_true, Bool.false_eq_true, if_false]
        constructor
        · apply le_max_of_le_right
          norm_num
        · apply max_le _ (by norm_num)
          nlinarith
      | false =>
        rw [hnoatt rfl]
        constructor
        · apply le_min _ (by norm_num)
          nlinarith
        · exact min_le_right _ _

/-- Witness for C7 on a domain with no stored multiplier (m = 1), with no
attack flags set. -/
theorem adaptive_multiplier_tick_cases_witness :
    getAdaptiveMultiplier adaptiveDefaults (domainAttackTick adaptiveDefaults [] "example.com" false false) "example.com" =
        min (getAdaptiveMultiplier adaptiveDefaults [] "example.com" + (1 - getAdaptiveMultiplier adaptiveDefaults [] "example.com") * (1/10)) 1 ∧
      ((3 : ℚ)/10 ≤ getAdaptiveMultiplier adaptiveDefaults (domainAttackTick adaptiveDefaults [] "example.com" false false) "example.com" ∧
        getAdaptiveMultiplier adaptiveDefaults (domainAttackTick adaptiveDefaults [] "example.com" false false) "example.com" ≤ 1) :=
  ⟨(adaptive_multiplier_tick_cases [] "example.com" false false (by norm_num [getAdaptiveMultiplier, adaptiveDefaults, alGet?]) (by norm_num [getAdaptiveMultiplier, adaptiveDefaults, alGet?])).2.2.1 rfl rfl,
    (adaptive_multiplier_tick_cases [] "example.com" false false (by norm_num [getAdaptiveMultiplier, adaptiveDefaults, alGet?]) (by norm_num [getAdaptiveMultiplier, adaptiveDefaults, alGet?])).2.2.2⟩

/-! ## Claim C8 -/

/-- C8: whenever at least maxConnRatePerIP of the recorded connection
timestamps of an IP lie within the rate window ending now, the connection
check rejects. -/
theorem connection_rate_cap_rejects (cfg : ConnConfig) (st : ConnState) (ip : String)
    (now : Int)
    (h : cfg.maxConnRatePerIP ≤
      (((alGet? st.connectionRate ip).getD []).filter
        (fun ts => decide (now - ts < cfg.connectionRateWindow))).length) :
    (checkConnectionLimit cfg st ip now).1 = false := by
  simp only [checkConnectionLimit]
  split_ifs with h1
  · rfl
  · rfl

/-- Witness for C8: eleven IncrementConnection calls within one second,
then the check rejects. -/
theorem connection_rate_cap_rejects_witness :
    connDefaults.maxConnRatePerIP ≤
        (((alGet? (connStorm 11).connectionRate "203.0.113.9").getD []).filter
          (fun ts => decide ((0 : Int) - ts < connDefaults.connectionRateWindow))).length ∧
      (checkConnectionLimit connDefaults (connStorm 11) "203.0.113.9" 0).1 = false :=
  ⟨by decide, connection_rate_cap_rejects connDefaults (connStorm 11) "203.0.113.9" 0 (by decide)⟩

/-! ## Claim C10 -/

theorem wmRecord_count (w : Nat) (hw : w ≠ 0) (m : WMap) (jp ip : String) (t now : Nat) :
    wmCount (wmRecord w m jp t) (now / w * w) ip =
      wmCount m (now / w * w) ip + (if jp = ip ∧ t / w = now / w then 1 else 0) := by
  unfold wmRecord wmCount
  by_cases hts : t / w * w = now / w * w
  · have hdiv : t / w = now / w := Nat.eq_of_mul_eq_mul_right (Nat.pos_of_ne_zero hw) hts
    rw [← hts, alGet_set_self]
    by_cases hip : jp = ip
    · subst hip
      rw [Option.getD_some, alGet_set_self, Option.getD_some, if_pos ⟨rfl, hdiv⟩]
    · rw [Option.getD_some, alGet_set_ne _ _ _ _ hip, if_neg (by intro hc; exact hip hc.1)]
      exact (Nat.add_zero _).symm
  · rw [alGet_set_ne _ _ _ _ hts, if_neg (by
      intro hc
      exact hts (by rw [hc.2]))]
    exact (Nat.add_zero _).symm

theorem runW_count (w : Nat) (hw : w ≠ 0) (events : List (Nat × String)) (ip : String)
    (now : Nat) :
    wmCount (runW w events) (now / w * w) ip =
      (events.filter (fun e => decide (e.2 = ip ∧ e.1 / w = now / w))).length := by
  induction events with
  | nil => rfl
  | cons e rest ih =>
    rw [runW, wmRecord_count w hw _ _ _ _ _, ih, List.filter]
    by_cases hp : e.2 = ip ∧ e.1 / w = now / w
    · rw [if_pos hp]
      simp [hp]
    · rw [if_neg hp]
      simp [hp]

theorem runRecords_proj (events : List (Nat × String)) :
    (runRecords events).burstIps = runW 10 events ∧
      (runRecords events).shortIps = runW 60 events ∧
      (runRecords events).mediumIps = runW 300 events ∧
      (runRecords events).longIps = runW 3600 events := by
  induction events with
  | nil => exact ⟨rfl, rfl, rfl, rfl⟩
  | cons e rest ih =>
    obtain ⟨h1, h2, h3, h4⟩ := ih
    refine ⟨?_, ?_, ?_, ?_⟩ <;>
      simp [runRecords, runW, recordRequest, mwDefaults, h1, h2, h3, h4]

/-- C10: for each recognized window kind, the count read for an IP equals
exactly the number of recorded requests of that IP whose timestamp falls
in the current bucket, the interval starting at floor(now / W) × W; in
particular it is 0 right after a bucket boundary is crossed. -/
theorem multiwindow_count_exact (events : List (Nat × String)) (ip : String) (now : Nat) :
    getRequestCount mwDefaults (runRecords events) ip "burst" now =
        (events.filter (fun e => decide (e.2 = ip ∧ e.1 / 10 = now / 10))).length ∧
      getRequestCount mwDefaults (runRecords events) ip "short" now =
        (events.filter (fun e => decide (e.2 = ip ∧ e.1 / 60 = now / 60))).length ∧
      getRequestCount mwDefaults (runRecords events) ip "medium" now =
        (events.filter (fun e => decide (e.2 = ip ∧ e.1 / 300 = now / 300))).length ∧
      getRequestCount mwDefaults (runRecords events) ip "long" now =
        (events.filter (fun e => decide (e.2 = ip ∧ e.1 / 3600 = now / 3600))).length := by
  obtain ⟨h1, h2, h3, h4⟩ := runRecords_proj events
  refine ⟨?_, ?_, ?_, ?_⟩
  · rw [show getRequestCount mwDefaults (runRecords events) ip "burst" now =
        wmCount (runRecords events).burstIps (now / 10 * 10) ip from rfl]
    rw [h1]
    exact runW_count 10 (by norm_num) events ip now
  · rw [show getRequestCount mwDefaults (runRecords events) ip "short" now =
        wmCount (runRecords events).shortIps (now / 60 * 60) ip from rfl]
    rw [h2]
    exact runW_count 60 (by norm_num) events ip now
  · rw [show getRequestCount mwDefaults (runRecords events) ip "medium" now =
        wmCount (runRecords events).mediumIps (now / 300 * 300) ip from rfl]
    rw [h3]
    exact runW_count 300 (by norm_num) events ip now
  · rw [show getRequestCount mwDefaults (runRecords events) ip "long" now =
        wmCount (runRecords events).longIps (now / 3600 * 3600) ip from rfl]
    rw [h4]
    exact runW_count 3600 (by norm_num) events ip now

end Firewall
